import Mathlib

/-!
Shallow embedding of the metal-detector visualization core
(DetectorSimulator, MetalTypes, HeatMapRenderer, CoverageRenderer,
SignalAnalyzer) together with proofs of the spec claims about it.

Modelling conventions:
  * JavaScript numbers are modelled as exact rationals.
  * Math.sqrt is modelled by ratSqrt, a rational approximation that is
    exact on perfect squares; every concrete evaluation in this file uses
    a perfect-square input.
  * Math.exp inside HeatMapRenderer.update is transcendental, so the
    Gaussian attenuation is passed to the update function as an explicit
    parameter att, with att d2 r2 standing for exp(-(d2 / r2)); the
    theorems about update hold for every attenuation function, hence in
    particular for the exponential one. Concrete witnesses only use the
    value att 0 r2 = exp 0 = 1.
  * JavaScript Infinity (the initial closest distance) is modelled by the
    top element of WithTop rationals.
  * Math.random() draws are passed to getSignal as explicit parameters
    r1 and r2 in the interval [0, 1).
-/

namespace MetalDetector

/-! ## Configuration constants (src/js/config.js) -/

/-- CANVAS.WIDTH -/
def CANVAS_WIDTH : ℚ := 800

/-- CANVAS.HEIGHT -/
def CANVAS_HEIGHT : ℚ := 600

/-- GRID.RESOLUTION : size of each grid cell in pixels -/
def GRID_RESOLUTION : ℚ := 10

/-- GRID.COLS = Math.floor(800 / 10) -/
def GRID_COLS : ℤ := 80

/-- GRID.ROWS = Math.floor(600 / 10) -/
def GRID_ROWS : ℤ := 60

/-- SIGNAL.MAX_STRENGTH -/
def MAX_STRENGTH : ℚ := 100

/-- SIGNAL.MIN_STRENGTH -/
def MIN_STRENGTH : ℚ := 0

/-- SIGNAL.DECAY_RATE : heat map decay factor per frame -/
def DECAY_RATE : ℚ := 92 / 100

/-- SIGNAL.DETECTION_RANGE : maximum distance at which objects are detected -/
def DETECTION_RANGE : ℚ := 150

/-- SIGNAL.FREQUENCY_MIN -/
def FREQUENCY_MIN : ℚ := 100

/-- SIGNAL.FREQUENCY_MAX -/
def FREQUENCY_MAX : ℚ := 900

/-- Math.sqrt modelled on rationals: sqrt (a / b) = sqrt (a * b) / b with a
floor integer square root.  Exact whenever the true square root is an
integer divided by the denominator, in particular on perfect squares; all
concrete evaluations in this file fall in that case. -/
def ratSqrt (q : ℚ) : ℚ := (Nat.sqrt (q.num.toNat * q.den) : ℚ) / (q.den : ℚ)

/-! ## Metal type registry (MetalTypes.js) -/

/-- One entry of METAL_TYPES.  Ranges are stored as explicit lo / hi
fields; color bytes are kept for completeness. -/
structure MetalType where
  name : String
  shortName : String
  vdiLo : ℚ
  vdiHi : ℚ
  phaseLo : ℚ
  phaseHi : ℚ
  audioFreqLo : ℚ
  audioFreqHi : ℚ
  depthMultiplier : ℚ
  colorR : ℚ
  colorG : ℚ
  colorB : ℚ
  conductivity : String
  deriving DecidableEq, Repr

/-- METAL_TYPES.IRON -/
def IRON : MetalType :=
  { name := "Iron (Ferrous)", shortName := "IRON", vdiLo := 0, vdiHi := 30,
    phaseLo := 20, phaseHi := 40, audioFreqLo := 100, audioFreqHi := 300,
    depthMultiplier := 12 / 10, colorR := 255, colorG := 100, colorB := 80,
    conductivity := "LOW" }

/-- METAL_TYPES.ALUMINUM -/
def ALUMINUM : MetalType :=
  { name := "Aluminum", shortName := "ALUMINUM", vdiLo := 35, vdiHi := 55,
    phaseLo := 60, phaseHi := 100, audioFreqLo := 300, audioFreqHi := 450,
    depthMultiplier := 9 / 10, colorR := 180, colorG := 180, colorB := 200,
    conductivity := "MEDIUM" }

/-- METAL_TYPES.COPPER -/
def COPPER : MetalType :=
  { name := "Copper", shortName := "COPPER", vdiLo := 60, vdiHi := 75,
    phaseLo := 120, phaseHi := 150, audioFreqLo := 500, audioFreqHi := 700,
    depthMultiplier := 1, colorR := 255, colorG := 165, colorB := 60,
    conductivity := "HIGH" }

/-- METAL_TYPES.SILVER -/
def SILVER : MetalType :=
  { name := "Silver/High Conductor", shortName := "SILVER", vdiLo := 80, vdiHi := 99,
    phaseLo := 160, phaseHi := 180, audioFreqLo := 750, audioFreqHi := 900,
    depthMultiplier := 11 / 10, colorR := 200, colorG := 240, colorB := 255,
    conductivity := "VERY_HIGH" }

/-- The METAL_TYPES object: key / value pairs in insertion order, which is
the order a JavaScript for..in loop visits them. -/
def METAL_TYPES : List (String × MetalType) :=
  [("IRON", IRON), ("ALUMINUM", ALUMINUM), ("COPPER", COPPER), ("SILVER", SILVER)]

/-- The registry values in table order. -/
def metalTypesInOrder : List MetalType := METAL_TYPES.map Prod.snd

/-- getMetalTypeFromVDI: first type whose inclusive VDI range contains the
value, defaulting to IRON when none matches. -/
def getMetalTypeFromVDI (vdi : ℚ) : MetalType :=
  (metalTypesInOrder.find? (fun t => decide (t.vdiLo ≤ vdi ∧ vdi ≤ t.vdiHi))).getD IRON

/-- getMetalTypeFromPhase: first type whose inclusive phase range contains
the value, defaulting to IRON when none matches. -/
def getMetalTypeFromPhase (phase : ℚ) : MetalType :=
  (metalTypesInOrder.find? (fun t => decide (t.phaseLo ≤ phase ∧ phase ≤ t.phaseHi))).getD IRON

/-- getMetalType(name) = METAL_TYPES[name] || METAL_TYPES.IRON -/
def getMetalType (nm : String) : MetalType :=
  ((METAL_TYPES.find? (fun p => decide (p.1 = nm))).map Prod.snd).getD IRON

/-- calculateVDI: Math.floor(random * (max - min + 1)) + min, with the
Math.random() draw r passed explicitly. -/
def calculateVDI (mt : MetalType) (r : ℚ) : ℚ :=
  ((⌊r * (mt.vdiHi - mt.vdiLo + 1)⌋ : ℤ) : ℚ) + mt.vdiLo

/-- calculatePhase: Math.floor(random * (max - min + 1)) + min. -/
def calculatePhase (mt : MetalType) (r : ℚ) : ℚ :=
  ((⌊r * (mt.phaseHi - mt.phaseLo + 1)⌋ : ℤ) : ℚ) + mt.phaseLo

/-- calculateAudioFrequency: linear map of strength into the audio range. -/
def calculateAudioFrequency (mt : MetalType) (strength : ℚ) : ℚ :=
  mt.audioFreqLo + strength / 100 * (mt.audioFreqHi - mt.audioFreqLo)

/-! ## Detector simulator (DetectorSimulator.js) -/

/-- One entry of BURIED_OBJECTS. -/
structure BuriedObject where
  x : ℚ
  y : ℚ
  strength : ℚ
  metalTypeName : String
  objName : String
  deriving DecidableEq, Repr

/-- calculateDistance: Euclidean distance between two points. -/
def calculateDistance (x1 y1 x2 y2 : ℚ) : ℚ :=
  ratSqrt ((x2 - x1) * (x2 - x1) + (y2 - y1) * (y2 - y1))

/-- calculateSignalStrength: fourth-power falloff, maximal at the object,
zero at and beyond the detection range, clamped to [MIN, MAX] strength. -/
def calculateSignalStrength (distance objectStrength : ℚ) : ℚ :=
  if distance = 0 then objectStrength
  else if DETECTION_RANGE ≤ distance then 0
  else
    let normalizedDistance := distance / DETECTION_RANGE
    let falloff := (1 - normalizedDistance) ^ 4
    let str := objectStrength * falloff
    max MIN_STRENGTH (min MAX_STRENGTH str)

/-- The signal record returned by getSignal. -/
structure Signal where
  strength : ℚ
  frequency : ℚ
  metalType : Option MetalType
  vdi : ℚ
  phase : ℚ
  closestObject : Option BuriedObject
  distance : WithTop ℚ
  deriving DecidableEq

/-- Loop accumulator of getSignal: running maximum strength, its object
and its distance (Infinity is the top element). -/
structure ScanAcc where
  maxStrength : ℚ
  closestObject : Option BuriedObject
  closestDistance : WithTop ℚ
  deriving DecidableEq

/-- One iteration of the getSignal object loop. -/
def scanStep (x y : ℚ) (acc : ScanAcc) (obj : BuriedObject) : ScanAcc :=
  let distance := calculateDistance x y obj.x obj.y
  if distance < DETECTION_RANGE then
    let str := calculateSignalStrength distance obj.strength
    if acc.maxStrength < str then
      { maxStrength := str, closestObject := some obj,
        closestDistance := ((distance : ℚ) : WithTop ℚ) }
    else acc
  else acc

/-- getSignal: scan all buried objects, keep the one with maximal computed
strength among those strictly inside the detection range, then derive the
metal type, VDI, phase and audio frequency.  r1 and r2 are the two
Math.random() draws used by calculateVDI and calculatePhase. -/
def getSignal (objects : List BuriedObject) (x y r1 r2 : ℚ) : Signal :=
  let acc := objects.foldl (scanStep x y) ⟨0, none, ⊤⟩
  match acc.closestObject with
  | none =>
      { strength := acc.maxStrength, frequency := 0, metalType := none,
        vdi := 0, phase := 0, closestObject := none, distance := acc.closestDistance }
  | some obj =>
      let mt := getMetalType obj.metalTypeName
      { strength := acc.maxStrength,
        frequency := calculateAudioFrequency mt acc.maxStrength,
        metalType := some mt,
        vdi := calculateVDI mt r1,
        phase := calculatePhase mt r2,
        closestObject := some obj,
        distance := acc.closestDistance }

/-- Distance from the query point to an object. -/
def distTo (x y : ℚ) (o : BuriedObject) : ℚ := calculateDistance x y o.x o.y

/-- In-range predicate of the getSignal loop. -/
def inRange (x y : ℚ) (o : BuriedObject) : Prop := distTo x y o < DETECTION_RANGE

instance (x y : ℚ) (o : BuriedObject) : Decidable (inRange x y o) := by
  unfold inRange; infer_instance

/-- Computed strength of an object as seen from the query point. -/
def strengthOf (x y : ℚ) (o : BuriedObject) : ℚ :=
  calculateSignalStrength (distTo x y o) o.strength

/-! ## Heat map (src/js/HeatMapRenderer.js)

The two grids are modelled as total functions on integer cell indices;
the source arrays only hold indices 0 ≤ i < GRID.COLS, 0 ≤ j < GRID.ROWS
and every write in the source is guarded by exactly the bound checks that
appear below, so out-of-bounds positions of the model functions are never
written. -/

/-- State of a HeatMapRenderer: signal-value grid and metal-type grid. -/
structure HeatMapState where
  grid : ℤ → ℤ → ℚ
  metalTypeGrid : ℤ → ℤ → Option MetalType

/-- The all-zero heat map built by the constructor. -/
def initialHeatMap : HeatMapState :=
  { grid := fun _ _ => 0, metalTypeGrid := fun _ _ => none }

/-- Cell index within the allocated grid. -/
def cellInBounds (i j : ℤ) : Prop :=
  0 ≤ i ∧ i < GRID_COLS ∧ 0 ≤ j ∧ j < GRID_ROWS

instance (i j : ℤ) : Decidable (cellInBounds i j) := by
  unfold cellInBounds; infer_instance

/-- The SIGNAL_THRESHOLD constant of HeatMapRenderer.update. -/
def SIGNAL_THRESHOLD : ℚ := 30

/-- The body of the double spread loop of HeatMapRenderer.update for one
offset (dx, dy): bound check, Gaussian falloff, max-update of the value
grid and conditional overwrite of the metal-type tag.  att d2 r2 models
Math.exp(-(d2 / r2)) where d2 = dx*dx + dy*dy and r2 is the squared
spread radius. -/
def paintCell (strength : ℚ) (metalType : Option MetalType) (cgx cgy r : ℤ)
    (att : ℤ → ℤ → ℚ) (s : HeatMapState) (off : ℤ × ℤ) : HeatMapState :=
  let targetX := cgx + off.1
  let targetY := cgy + off.2
  if ¬ cellInBounds targetX targetY then s
  else
    let d2 := off.1 * off.1 + off.2 * off.2
    let falloff := att d2 (r * r)
    let adjustedStrength := strength * falloff
    if s.grid targetX targetY < adjustedStrength then
      { grid := fun a b =>
          if a = targetX ∧ b = targetY then adjustedStrength else s.grid a b,
        metalTypeGrid := fun a b =>
          if a = targetX ∧ b = targetY then
            if metalType.isSome then metalType else s.metalTypeGrid a b
          else s.metalTypeGrid a b }
    else s

/-- Offsets visited by the spread loop: dx from -r to r (outer loop), dy
from -r to r (inner loop). -/
def spreadOffsets (r : ℕ) : List (ℤ × ℤ) :=
  (List.range (2 * r + 1)).flatMap fun (i : ℕ) =>
    (List.range (2 * r + 1)).map fun (j : ℕ) => ((i : ℤ) - (r : ℤ), (j : ℤ) - (r : ℤ))

/-- HeatMapRenderer.update: reject weak signals, locate and bound-check
the center cell, then spread with Gaussian falloff, taking the max of the
current and the new value in every touched cell. -/
def heatMapUpdate (s : HeatMapState) (x y strength : ℚ) (metalType : Option MetalType)
    (att : ℤ → ℤ → ℚ) : HeatMapState :=
  if strength < SIGNAL_THRESHOLD then s
  else
    let centerGridX : ℤ := ⌊x / GRID_RESOLUTION⌋
    let centerGridY : ℤ := ⌊y / GRID_RESOLUTION⌋
    if ¬ cellInBounds centerGridX centerGridY then s
    else
      let spreadRadius : ℤ := ⌈(2 : ℚ) + strength / 100 * 3⌉
      (spreadOffsets spreadRadius.toNat).foldl
        (paintCell strength metalType centerGridX centerGridY spreadRadius att) s

/-- One cell of HeatMapRenderer.decay: multiply by the decay factor, then
snap values below the 0.5 epsilon to exactly zero. -/
def decayVal (v : ℚ) : ℚ :=
  if v * DECAY_RATE < 1 / 2 then 0 else v * DECAY_RATE

/-- HeatMapRenderer.decay: when decay is enabled, apply decayVal to every
allocated cell; otherwise leave the state untouched. -/
def heatMapDecay (enableDecay : Bool) (s : HeatMapState) : HeatMapState :=
  if enableDecay then
    { grid := fun i j => if cellInBounds i j then decayVal (s.grid i j) else s.grid i j,
      metalTypeGrid := s.metalTypeGrid }
  else s

/-! ## Coverage grid (CoverageRenderer.js)

The source tests Math.sqrt(dx*dx + dy*dy) <= radius; since both sides are
nonnegative this is equivalent to dx*dx + dy*dy <= radius*radius, which is
how the test is written here (it avoids the square root and is exact). -/

/-- State of a CoverageRenderer: a timestamp per cell, 0 = never
searched. -/
structure CoverageState where
  coverageGrid : ℤ → ℤ → ℚ

/-- Cell bounds of the coverage grid (same dimensions as the heat map). -/
def covInBounds (i j : ℤ) : Prop :=
  0 ≤ i ∧ i < GRID_COLS ∧ 0 ≤ j ∧ j < GRID_ROWS

instance (i j : ℤ) : Decidable (covInBounds i j) := by
  unfold covInBounds; infer_instance

/-- CoverageRenderer.update: mark every cell of the clamped bounding box
whose center lies within the detector radius with the current wall-clock
time (passed explicitly, Date.now() in the source). -/
def coverageUpdate (s : CoverageState) (x y radius time : ℚ) : CoverageState :=
  let minCol : ℤ := max 0 ⌊(x - radius) / GRID_RESOLUTION⌋
  let maxCol : ℤ := min (GRID_COLS - 1) ⌊(x + radius) / GRID_RESOLUTION⌋
  let minRow : ℤ := max 0 ⌊(y - radius) / GRID_RESOLUTION⌋
  let maxRow : ℤ := min (GRID_ROWS - 1) ⌊(y + radius) / GRID_RESOLUTION⌋
  { coverageGrid := fun i j =>
      if minCol ≤ i ∧ i ≤ maxCol ∧ minRow ≤ j ∧ j ≤ maxRow then
        let cellCenterX := ((i : ℚ) + 1 / 2) * GRID_RESOLUTION
        let cellCenterY := ((j : ℚ) + 1 / 2) * GRID_RESOLUTION
        let dx := cellCenterX - x
        let dy := cellCenterY - y
        if dx * dx + dy * dy ≤ radius * radius then time else s.coverageGrid i j
      else s.coverageGrid i j }

/-- All (column, row) index pairs of the coverage grid, as scanned by the
percentage and reset loops. -/
def allCells : List (ℤ × ℤ) :=
  (List.range 80).flatMap fun (i : ℕ) => (List.range 60).map fun (j : ℕ) => ((i : ℤ), (j : ℤ))

/-- CoverageRenderer.getCoveragePercentage: full scan counting cells with
a nonzero (strictly positive) timestamp, divided by the total count,
times 100. -/
def getCoveragePercentage (s : CoverageState) : ℚ :=
  let totalCells : ℚ := (GRID_COLS : ℚ) * (GRID_ROWS : ℚ)
  let searchedCells : ℕ := allCells.countP fun c => decide (0 < s.coverageGrid c.1 c.2)
  (searchedCells : ℚ) / totalCells * 100

/-- CoverageRenderer.reset: zero every allocated cell. -/
def coverageReset (s : CoverageState) : CoverageState :=
  { coverageGrid := fun i j => if covInBounds i j then 0 else s.coverageGrid i j }

/-! ## Signal analyzer (SignalAnalyzer.js)

History entries keep the two fields the analysis functions read: the
signal strength and the VDI.  The analyzer guards every VDI read with a
null check, so the VDI is modelled as an optional value. -/

/-- One entry of the analyzer signal history. -/
structure HistEntry where
  strength : ℚ
  vdi : Option ℚ
  deriving DecidableEq, Repr

/-- Full analyzer state: bounded history window, the current analysis
record and the target-lock state. -/
structure AnalyzerState where
  signalHistory : List HistEntry
  stability : ℤ
  quality : String
  repeatability : ℤ
  confidence : ℤ
  targetLocked : Bool
  lastTargetVDI : Option ℤ
  deriving DecidableEq, Repr

/-- The analyzer constructor / reset state. -/
def initialAnalyzer : AnalyzerState :=
  { signalHistory := [], stability := 0, quality := "UNKNOWN",
    repeatability := 0, confidence := 0, targetLocked := false,
    lastTargetVDI := none }

/-- maxHistoryLength -/
def maxHistoryLength : ℕ := 30

/-- SignalAnalyzer.addToHistory: push the new entry, then drop the oldest
entry when the window exceeds its capacity. -/
def addToHistory (h : List HistEntry) (e : HistEntry) : List HistEntry :=
  let h2 := h ++ [e]
  if maxHistoryLength < h2.length then h2.drop 1 else h2

/-- VDI readings used by calculateStability: entries above the noise
floor whose VDI is not null. -/
def stabilityReadings (h : List HistEntry) : List ℚ :=
  (h.filter fun e => decide (10 < e.strength) && e.vdi.isSome).filterMap (fun e => e.vdi)

/-- SignalAnalyzer.calculateStability: 100 minus five times the standard
deviation of the qualifying VDI readings, clamped to [0, 100] and
rounded; zero when there are fewer than 5 history entries or fewer than 3
qualifying readings. -/
def calculateStability (h : List HistEntry) : ℤ :=
  if h.length < 5 then 0
  else
    let vdiReadings := stabilityReadings h
    if vdiReadings.length < 3 then 0
    else
      let mean := vdiReadings.sum / (vdiReadings.length : ℚ)
      let variance := (vdiReadings.map fun v => (v - mean) ^ 2).sum / (vdiReadings.length : ℚ)
      let stdDev := ratSqrt variance
      round (max 0 (min 100 (100 - stdDev * 5)))

/-- SignalAnalyzer.calculateRepeatability: zero below 10 history entries;
otherwise a function of the fraction of entries above the noise floor:
80 + |fraction - 0.5| * 40 when the fraction is outside [0.3, 0.7], a
flat 40 otherwise, rounded. -/
def calculateRepeatability (h : List HistEntry) : ℤ :=
  if h.length < 10 then 0
  else
    let signalPresent : ℕ := h.countP fun e => decide (10 < e.strength)
    let presenceFrac : ℚ := (signalPresent : ℚ) / (h.length : ℚ)
    let rep : ℚ :=
      if 7 / 10 < presenceFrac ∨ presenceFrac < 3 / 10 then
        80 + |presenceFrac - 1 / 2| * 40
      else 40
    round rep

/-- SignalAnalyzer.getAverageStrength: mean strength of the entries with
strictly positive strength, zero when there are none. -/
def getAverageStrength (h : List HistEntry) : ℚ :=
  if h.length = 0 then 0
  else
    let validReadings := (h.filter fun e => decide (0 < e.strength)).map (fun e => e.strength)
    if validReadings.length = 0 then 0
    else validReadings.sum / (validReadings.length : ℚ)

/-- SignalAnalyzer.calculateConfidence: weighted blend of stability,
repeatability and average strength. -/
def calculateConfidence (stability repeatability : ℤ) (avgStrength : ℚ) : ℤ :=
  let strengthWeight := min 100 (avgStrength * (12 / 10))
  round ((stability : ℚ) * (4 / 10) + (repeatability : ℚ) * (3 / 10) + strengthWeight * (3 / 10))

/-- SignalAnalyzer.determineQuality: strict top-down priority ladder. -/
def determineQuality (confidence stability : ℤ) (avgStrength : ℚ) : String :=
  if 80 < confidence ∧ 75 < stability ∧ 60 < avgStrength then "EXCELLENT"
  else if 60 < confidence ∧ 60 < stability then "GOOD"
  else if 40 < confidence ∧ 40 < stability then "FAIR"
  else if 20 < confidence ∨ 20 < stability then "POOR"
  else "JUNK"

/-- VDI readings used by checkTargetLock: every history entry with a
non-null VDI (no noise-floor filter here). -/
def lockReadings (h : List HistEntry) : List ℚ :=
  (h.filter fun e => e.vdi.isSome).filterMap (fun e => e.vdi)

/-- SignalAnalyzer.checkTargetLock: lock when stability > 70 and average
strength > 40; on the unlocked-to-locked transition record the rounded
mean of the non-null VDI readings; unlock and clear the recorded VDI the
moment either condition fails. -/
def checkTargetLock (s : AnalyzerState) : AnalyzerState :=
  let avgStrength := getAverageStrength s.signalHistory
  if 70 < s.stability ∧ 40 < avgStrength then
    if s.targetLocked then s
    else
      let vdiReadings := lockReadings s.signalHistory
      if 0 < vdiReadings.length then
        { s with targetLocked := true,
                 lastTargetVDI := some (round (vdiReadings.sum / (vdiReadings.length : ℚ))) }
      else { s with targetLocked := true }
  else { s with targetLocked := false, lastTargetVDI := none }

/-- SignalAnalyzer.analyzeSignal: recompute the analysis record from the
window, then re-evaluate the target lock. -/
def analyzeSignal (s : AnalyzerState) : AnalyzerState :=
  let st := calculateStability s.signalHistory
  let rep := calculateRepeatability s.signalHistory
  let avgStrength := getAverageStrength s.signalHistory
  let conf := calculateConfidence st rep avgStrength
  let q := determineQuality conf st avgStrength
  checkTargetLock
    { s with stability := st, repeatability := rep, confidence := conf, quality := q }

/-- SignalAnalyzer.update: append to the history, then analyze once the
window holds at least 5 samples. -/
def analyzerUpdate (s : AnalyzerState) (e : HistEntry) : AnalyzerState :=
  let s1 := { s with signalHistory := addToHistory s.signalHistory e }
  if 5 ≤ s1.signalHistory.length then analyzeSignal s1 else s1

lemma css_at_zero (b : ℚ) : calculateSignalStrength 0 b = b := by
  simp [calculateSignalStrength]

lemma css_far (d b : ℚ) (h : DETECTION_RANGE ≤ d) : calculateSignalStrength d b = 0 := by
  have hd0 : d ≠ 0 := by
    intro h0
    rw [h0] at h
    norm_num [DETECTION_RANGE] at h
  simp only [calculateSignalStrength, if_neg hd0, if_pos h]

lemma css_of_pos_lt (d b : ℚ) (h0 : d ≠ 0) (h1 : ¬ DETECTION_RANGE ≤ d) :
    calculateSignalStrength d b = max 0 (min 100 (b * (1 - d / 150) ^ 4)) := by
  simp only [calculateSignalStrength, if_neg h0, if_neg h1]
  simp only [MIN_STRENGTH, MAX_STRENGTH, DETECTION_RANGE]

lemma css_nonneg (d b : ℚ) (hb : 0 ≤ b) : 0 ≤ calculateSignalStrength d b := by
  by_cases h0 : d = 0
  · rw [h0, css_at_zero]; exact hb
  by_cases h1 : DETECTION_RANGE ≤ d
  · rw [css_far d b h1]
  · rw [css_of_pos_lt d b h0 h1]; exact le_max_left 0 _

lemma css_le_base (d b : ℚ) (hb : 0 ≤ b) (hd : 0 ≤ d) : calculateSignalStrength d b ≤ b := by
  by_cases h0 : d = 0
  · rw [h0, css_at_zero]
  by_cases h1 : DETECTION_RANGE ≤ d
  · rw [css_far d b h1]; exact hb
  · rw [css_of_pos_lt d b h0 h1]
    have hd150 : d / 150 ≤ 1 := by
      rw [div_le_one (by norm_num)]
      simpa [DETECTION_RANGE] using le_of_not_le h1
    have hpow : (1 - d / 150) ^ 4 ≤ 1 := by
      apply pow_le_one₀ (by linarith) (by linarith)
    have hble : b * (1 - d / 150) ^ 4 ≤ b := by
      calc b * (1 - d / 150) ^ 4 ≤ b * 1 := by gcongr
        _ = b := mul_one b
    have h2 : min 100 (b * (1 - d / 150) ^ 4) ≤ b := le_trans (min_le_right _ _) hble
    exact max_le hb h2

/-- Claim C2: for a single object with base strength in [0, 100] the
computed signal strength equals the base strength times (1 - d/R)^4
clamped to [0, 100] for distances inside the detection range, equals the
base strength at distance 0, is exactly 0 at and beyond the range, and is
non-increasing in the distance. -/
theorem c2_falloff (b d : ℚ) (hb0 : 0 ≤ b) (hb1 : b ≤ 100) (hd : 0 ≤ d) :
    (d < DETECTION_RANGE →
      calculateSignalStrength d b = max 0 (min 100 (b * (1 - d / DETECTION_RANGE) ^ 4))) ∧
    (DETECTION_RANGE ≤ d → calculateSignalStrength d b = 0) ∧
    calculateSignalStrength 0 b = b ∧
    (∀ e : ℚ, d ≤ e → calculateSignalStrength e b ≤ calculateSignalStrength d b) := by
  refine ⟨?_, css_far d b, css_at_zero b, ?_⟩
  · intro hlt
    by_cases h0 : d = 0
    · rw [h0, css_at_zero]
      have hmm : max 0 (min 100 b) = b := by
        rw [min_eq_right hb1, max_eq_right hb0]
      simp [hmm]
    · rw [css_of_pos_lt d b h0 (not_le.mpr hlt)]
      norm_num [DETECTION_RANGE]
  · intro e hde
    by_cases he1 : DETECTION_RANGE ≤ e
    · rw [css_far e b he1]; exact css_nonneg d b hb0
    by_cases h0 : d = 0
    · rw [h0, css_at_zero]
      exact css_le_base e b hb0 (by linarith [hd, hde])
    have he0 : e ≠ 0 := by
      intro h
      rw [h] at hde
      exact h0 (le_antisymm hde hd)
    have hd1 : ¬ DETECTION_RANGE ≤ d := fun h => he1 (le_trans h hde)
    rw [css_of_pos_lt e b he0 he1, css_of_pos_lt d b h0 hd1]
    have he150 : e < 150 := by simpa [DETECTION_RANGE] using not_le.mp he1
    have hbase : 0 ≤ 1 - e / 150 := by
      have : e / 150 ≤ 1 := (div_le_one (show (0:ℚ) < 150 by norm_num)).mpr (le_of_lt he150)
      linarith
    have hstep : 1 - e / 150 ≤ 1 - d / 150 := by
      have : d / 150 ≤ e / 150 := by gcongr
      linarith
    gcongr

/-- Witness for c2_falloff: the spec example object of base strength 90
at distances 75, 150 and 0, plus one monotonicity instance. -/
theorem c2_falloff_witness :
    calculateSignalStrength 75 90 = 45 / 8 ∧ calculateSignalStrength 150 90 = 0 ∧
      calculateSignalStrength 0 90 = 90 ∧
      calculateSignalStrength 100 90 ≤ calculateSignalStrength 75 90 := by
  have h := c2_falloff 90 75 (by norm_num) (by norm_num) (by norm_num)
  refine ⟨?_, ?_, h.2.2.1, h.2.2.2 100 (by norm_num)⟩
  · rw [h.1 (by norm_num [DETECTION_RANGE])]
    norm_num [DETECTION_RANGE]
  · exact (c2_falloff 90 150 (by norm_num) (by norm_num) (by norm_num)).2.1
      (by norm_num [DETECTION_RANGE])
lemma find?_append_first {α : Type} (p : α → Bool) :
    ∀ (pre : List α) (t : α) (post : List α), (∀ u ∈ pre, p u = false) → p t = true →
      (pre ++ t :: post).find? p = some t := by
  intro pre
  induction pre with
  | nil =>
      intro t post _ ht
      simp [List.find?, ht]
  | cons a pre ih =>
      intro t post hpre ht
      have ha : p a = false := hpre a (List.mem_cons_self a pre)
      simp only [List.cons_append, List.find?, ha]
      exact ih t post (fun u hu => hpre u (List.mem_cons_of_mem a hu)) ht

/-- Claim C8: classification by VDI (and by phase) scans the registry in
table order and returns the first type whose inclusive range contains the
value; when no range contains the value (for example any VDI in
[31, 34]) it falls back to the default lowest-conductivity type IRON. -/
theorem c8_classification (v : ℚ) :
    (∀ pre t post, metalTypesInOrder = pre ++ t :: post →
        t.vdiLo ≤ v ∧ v ≤ t.vdiHi → (∀ u ∈ pre, ¬(u.vdiLo ≤ v ∧ v ≤ u.vdiHi)) →
        getMetalTypeFromVDI v = t) ∧
    ((∀ t ∈ metalTypesInOrder, ¬(t.vdiLo ≤ v ∧ v ≤ t.vdiHi)) → getMetalTypeFromVDI v = IRON) ∧
    (∀ pre t post, metalTypesInOrder = pre ++ t :: post →
        t.phaseLo ≤ v ∧ v ≤ t.phaseHi → (∀ u ∈ pre, ¬(u.phaseLo ≤ v ∧ v ≤ u.phaseHi)) →
        getMetalTypeFromPhase v = t) ∧
    ((∀ t ∈ metalTypesInOrder, ¬(t.phaseLo ≤ v ∧ v ≤ t.phaseHi)) → getMetalTypeFromPhase v = IRON) ∧
    (31 ≤ v → v ≤ 34 → getMetalTypeFromVDI v = IRON ∧
      ∀ t ∈ metalTypesInOrder, ¬(t.vdiLo ≤ v ∧ v ≤ t.vdiHi)) := by
  have hvdinone : (∀ t ∈ metalTypesInOrder, ¬(t.vdiLo ≤ v ∧ v ≤ t.vdiHi)) →
      getMetalTypeFromVDI v = IRON := by
    intro hall
    unfold getMetalTypeFromVDI
    rw [List.find?_eq_none.mpr]
    · rfl
    · intro t ht
      simp only [decide_eq_true_eq]
      exact hall t ht
  refine ⟨?_, hvdinone, ?_, ?_, ?_⟩
  · intro pre t post hsplit hin hpre
    unfold getMetalTypeFromVDI
    rw [hsplit, find?_append_first _ pre t post ?_ (by simp [hin])]
    · rfl
    · intro u hu
      simp only [decide_eq_false_iff_not]
      exact hpre u hu
  · intro pre t post hsplit hin hpre
    unfold getMetalTypeFromPhase
    rw [hsplit, find?_append_first _ pre t post ?_ (by simp [hin])]
    · rfl
    · intro u hu
      simp only [decide_eq_false_iff_not]
      exact hpre u hu
  · intro hall
    unfold getMetalTypeFromPhase
    rw [List.find?_eq_none.mpr]
    · rfl
    · intro t ht
      simp only [decide_eq_true_eq]
      exact hall t ht
  · intro h31 h34
    have hall : ∀ t ∈ metalTypesInOrder, ¬(t.vdiLo ≤ v ∧ v ≤ t.vdiHi) := by
      intro t ht
      simp only [metalTypesInOrder, METAL_TYPES, List.map_cons, List.map_nil,
        List.mem_cons, List.not_mem_nil, or_false] at ht
      rcases ht with rfl | rfl | rfl | rfl
      · simp only [IRON]
        intro hc
        linarith [hc.2]
      · simp only [ALUMINUM]
        intro hc
        linarith [hc.1]
      · simp only [COPPER]
        intro hc
        linarith [hc.1]
      · simp only [SILVER]
        intro hc
        linarith [hc.1]
    exact ⟨hvdinone hall, hall⟩

/-- Witness for c8_classification: VDI 32 falls in no range and
classifies as IRON; VDI 65 classifies as COPPER (third entry, first
match); phase 170 classifies as SILVER. -/
theorem c8_classification_witness :
    getMetalTypeFromVDI 32 = IRON ∧ getMetalTypeFromVDI 65 = COPPER ∧
      getMetalTypeFromPhase 170 = SILVER := by
  refine ⟨((c8_classification 32).2.2.2.2 (by norm_num) (by norm_num)).1, ?_, ?_⟩
  · apply (c8_classification 65).1 [IRON, ALUMINUM] COPPER [SILVER]
    · simp [metalTypesInOrder, METAL_TYPES]
    · norm_num [COPPER]
    · intro u hu
      simp only [List.mem_cons, List.not_mem_nil, or_false] at hu
      rcases hu with rfl | rfl
      · norm_num [IRON]
      · norm_num [ALUMINUM]
  · apply (c8_classification 170).2.2.1 [IRON, ALUMINUM, COPPER] SILVER []
    · simp [metalTypesInOrder, METAL_TYPES]
    · norm_num [SILVER]
    · intro u hu
      simp only [List.mem_cons, List.not_mem_nil, or_false] at hu
      rcases hu with rfl | rfl | rfl
      · norm_num [IRON]
      · norm_num [ALUMINUM]
      · norm_num [COPPER]
lemma decayVal_zero : decayVal 0 = 0 := by
  norm_num [decayVal, DECAY_RATE]

lemma decayVal_nonneg (v : ℚ) (h : 0 ≤ v) : 0 ≤ decayVal v := by
  unfold decayVal
  split
  · exact le_refl 0
  · have : (0:ℚ) ≤ DECAY_RATE := by norm_num [DECAY_RATE]
    positivity

lemma decayVal_le_mul (v : ℚ) (h : 0 ≤ v) : decayVal v ≤ v * DECAY_RATE := by
  unfold decayVal
  split
  · have : (0:ℚ) ≤ DECAY_RATE := by norm_num [DECAY_RATE]
    positivity
  · exact le_refl _

lemma decayVal_iter_zero (n : ℕ) : decayVal^[n] 0 = 0 := by
  induction n with
  | zero => rfl
  | succ m ih => rw [Function.iterate_succ_apply', ih, decayVal_zero]

lemma decayVal_iter_bound (v : ℚ) (h : 0 ≤ v) (n : ℕ) :
    0 ≤ decayVal^[n] v ∧ decayVal^[n] v ≤ DECAY_RATE ^ n * v := by
  induction n with
  | zero => exact ⟨h, by norm_num⟩
  | succ m ih =>
      rw [Function.iterate_succ_apply']
      constructor
      · exact decayVal_nonneg _ ih.1
      · calc decayVal (decayVal^[m] v) ≤ decayVal^[m] v * DECAY_RATE :=
              decayVal_le_mul _ ih.1
          _ ≤ DECAY_RATE ^ m * v * DECAY_RATE := by
              have hr : (0:ℚ) ≤ DECAY_RATE := by norm_num [DECAY_RATE]
              exact mul_le_mul_of_nonneg_right ih.2 hr
          _ = DECAY_RATE ^ (m + 1) * v := by ring

lemma decay_grid_cell (s : HeatMapState) (i j : ℤ) (h : cellInBounds i j) :
    (heatMapDecay true s).grid i j = decayVal (s.grid i j) := by
  simp [heatMapDecay, h]

lemma decay_iter_cell (i j : ℤ) (h : cellInBounds i j) :
    ∀ (n : ℕ) (s : HeatMapState),
      ((heatMapDecay true)^[n] s).grid i j = decayVal^[n] (s.grid i j) := by
  intro n
  induction n with
  | zero => intro s; rfl
  | succ m ih =>
      intro s
      rw [Function.iterate_succ_apply', Function.iterate_succ_apply',
        decay_grid_cell _ _ _ h, ih s]

/-- Claim C6: with decay enabled, a cell at exactly 0 stays at exactly 0
under any number of decay calls, and any cell value in (0, 100] reaches
exactly 0 after at most 73 calls (and stays there), because each call
multiplies by the decay factor 0.92 and snaps values below the 0.5
epsilon to zero. -/
theorem c6_decay_convergence (s : HeatMapState) (i j : ℤ) (hin : cellInBounds i j) :
    (s.grid i j = 0 → ∀ n : ℕ, ((heatMapDecay true)^[n] s).grid i j = 0) ∧
    (0 < s.grid i j → s.grid i j ≤ 100 →
      ∀ n : ℕ, 73 ≤ n → ((heatMapDecay true)^[n] s).grid i j = 0) := by
  constructor
  · intro h0 n
    rw [decay_iter_cell i j hin n s, h0, decayVal_iter_zero]
  · intro hpos h100 n hn
    have hv : 0 ≤ s.grid i j := le_of_lt hpos
    have h72 := decayVal_iter_bound (s.grid i j) hv 72
    have hsmall : decayVal^[72] (s.grid i j) < 1 / 2 := by
      have hb : DECAY_RATE ^ 72 * s.grid i j ≤ DECAY_RATE ^ 72 * 100 := by
        have hr : (0:ℚ) ≤ DECAY_RATE ^ 72 := by positivity
        exact mul_le_mul_of_nonneg_left h100 hr
      have hnum : DECAY_RATE ^ 72 * 100 < 1 / 2 := by
        norm_num [DECAY_RATE]
      linarith [h72.2]
    have h73 : decayVal^[73] (s.grid i j) = 0 := by
      have step : decayVal^[73] (s.grid i j) = decayVal (decayVal^[72] (s.grid i j)) :=
        Function.iterate_succ_apply' decayVal 72 (s.grid i j)
      rw [step]
      unfold decayVal
      rw [if_pos]
      have hnn := (decayVal_iter_bound (s.grid i j) hv 72).1
      calc decayVal^[72] (s.grid i j) * DECAY_RATE ≤ decayVal^[72] (s.grid i j) * 1 := by
            apply mul_le_mul_of_nonneg_left _ hnn
            norm_num [DECAY_RATE]
        _ < 1 / 2 := by rw [mul_one]; exact hsmall
    rw [decay_iter_cell i j hin n s]
    obtain ⟨m, rfl⟩ : ∃ m, n = m + 73 := ⟨n - 73, by omega⟩
    rw [Function.iterate_add_apply, h73, decayVal_iter_zero]

/-- Witness for c6_decay_convergence: a cell holding 50 is exactly 0
after 73 decay calls. -/
theorem c6_decay_convergence_witness :
    ((heatMapDecay true)^[73]
        { grid := fun _ _ => 50, metalTypeGrid := fun _ _ => none } : HeatMapState).grid 0 0 = 0 := by
  exact (c6_decay_convergence _ 0 0 (by norm_num [cellInBounds, GRID_COLS, GRID_ROWS])).2
    (by norm_num) (by norm_num) 73 le_rfl
/-- Claim C10: heatMapUpdate is a complete no-op (both grids unchanged,
hence no out-of-bounds write can occur) whenever the signal strength is
below the paint threshold 30 or the center cell floor(x/10), floor(y/10)
falls outside the grid bounds; the source guards both loops with exactly
these checks. -/
theorem c10_update_noop (s : HeatMapState) (x y strength : ℚ)
    (metalType : Option MetalType) (att : ℤ → ℤ → ℚ)
    (h : strength < SIGNAL_THRESHOLD ∨
      ¬ cellInBounds ⌊x / GRID_RESOLUTION⌋ ⌊y / GRID_RESOLUTION⌋) :
    heatMapUpdate s x y strength metalType att = s := by
  unfold heatMapUpdate
  rcases h with h | h
  · rw [if_pos h]
  · by_cases h30 : strength < SIGNAL_THRESHOLD
    · rw [if_pos h30]
    · rw [if_neg h30, if_pos h]

/-- Witness for c10_update_noop: the canvas-edge position x = 800 floors
to column 80 of the 80-column grid, so an update there changes nothing
even at full strength; a strength-29 update is likewise a no-op. -/
theorem c10_update_noop_witness :
    heatMapUpdate initialHeatMap 800 300 100 none (fun _ _ => 1) = initialHeatMap ∧
      heatMapUpdate initialHeatMap 400 300 29 none (fun _ _ => 1) = initialHeatMap := by
  constructor
  · apply c10_update_noop
    right
    intro hc
    have h80 : (⌊(800:ℚ) / GRID_RESOLUTION⌋ : ℤ) = 80 := by
      norm_num [GRID_RESOLUTION]
    rw [h80] at hc
    have := hc.2.1
    norm_num [GRID_COLS] at this
  · apply c10_update_noop
    left
    norm_num [SIGNAL_THRESHOLD]
lemma if_lt_max (a b : ℚ) : (if a < b then b else a) = max a b := by
  by_cases h : a < b
  · rw [if_pos h, max_eq_right (le_of_lt h)]
  · rw [if_neg h, max_eq_left (le_of_not_lt h)]

lemma paintCell_grid_other (strength : ℚ) (mt : Option MetalType) (cgx cgy r : ℤ)
    (att : ℤ → ℤ → ℚ) (s : HeatMapState) (off : ℤ × ℤ) (tx ty : ℤ)
    (h : ¬(tx = cgx + off.1 ∧ ty = cgy + off.2)) :
    (paintCell strength mt cgx cgy r att s off).grid tx ty = s.grid tx ty := by
  simp only [paintCell]
  split
  · rfl
  · split
    · simp only [if_neg h]
    · rfl

lemma paintCell_grid_target (strength : ℚ) (mt : Option MetalType) (cgx cgy r : ℤ)
    (att : ℤ → ℤ → ℚ) (s : HeatMapState) (off : ℤ × ℤ)
    (hin : cellInBounds (cgx + off.1) (cgy + off.2)) :
    (paintCell strength mt cgx cgy r att s off).grid (cgx + off.1) (cgy + off.2) =
      max (s.grid (cgx + off.1) (cgy + off.2))
        (strength * att (off.1 * off.1 + off.2 * off.2) (r * r)) := by
  simp only [paintCell, if_neg (not_not_intro hin)]
  rw [← if_lt_max]
  split
  · simp
  · rfl

lemma paint_foldl_grid (strength : ℚ) (mt : Option MetalType) (cgx cgy r : ℤ)
    (att : ℤ → ℤ → ℚ) (tx ty : ℤ) (hin : cellInBounds tx ty) :
    ∀ (offs : List (ℤ × ℤ)) (s : HeatMapState),
      (offs.foldl (paintCell strength mt cgx cgy r att) s).grid tx ty =
        if (tx - cgx, ty - cgy) ∈ offs then
          max (s.grid tx ty)
            (strength * att ((tx - cgx) * (tx - cgx) + (ty - cgy) * (ty - cgy)) (r * r))
        else s.grid tx ty := by
  intro offs
  induction offs with
  | nil => intro s; simp
  | cons off rest ih =>
      intro s
      rw [List.foldl_cons]
      by_cases hoff : off = (tx - cgx, ty - cgy)
      · subst hoff
        have htx : cgx + (tx - cgx) = tx := by ring
        have hty : cgy + (ty - cgy) = ty := by ring
        have hpaint := paintCell_grid_target strength mt cgx cgy r att s (tx - cgx, ty - cgy)
          (by rw [htx, hty]; exact hin)
        rw [htx, hty] at hpaint
        dsimp only at hpaint
        rw [ih, if_pos (List.mem_cons_self _ _)]
        by_cases hmem : (tx - cgx, ty - cgy) ∈ rest
        · rw [if_pos hmem, hpaint, max_assoc, max_self]
        · rw [if_neg hmem, hpaint]
      · have hne : ¬(tx = cgx + off.1 ∧ ty = cgy + off.2) := by
          intro hc
          apply hoff
          rw [Prod.ext_iff]
          exact ⟨by omega, by omega⟩
        rw [ih, paintCell_grid_other strength mt cgx cgy r att s off tx ty hne]
        have hmem : ((tx - cgx, ty - cgy) ∈ off :: rest) ↔ ((tx - cgx, ty - cgy) ∈ rest) := by
          simp only [List.mem_cons]
          constructor
          · intro h
            rcases h with h | h
            · exact absurd h.symm hoff
            · exact h
          · intro h
            exact Or.inr h
        rw [if_congr hmem rfl rfl]

lemma mem_spreadOffsets (r : ℕ) (dx dy : ℤ)
    (hdx1 : -(r : ℤ) ≤ dx) (hdx2 : dx ≤ r) (hdy1 : -(r : ℤ) ≤ dy) (hdy2 : dy ≤ r) :
    (dx, dy) ∈ spreadOffsets r := by
  have hx : (dx + r).toNat ∈ List.range (2 * r + 1) := by
    rw [List.mem_range]
    omega
  have hy : (dy + r).toNat ∈ List.range (2 * r + 1) := by
    rw [List.mem_range]
    omega
  have hinner := List.mem_map_of_mem
    (fun j : ℕ => (((((dx + r).toNat : ℕ)) : ℤ) - (r : ℤ), (j : ℤ) - (r : ℤ))) hy
  have houter : ((((dx + r).toNat : ℕ) : ℤ) - (r : ℤ), (((dy + r).toNat : ℕ) : ℤ) - (r : ℤ)) ∈
      spreadOffsets r := by
    unfold spreadOffsets
    exact List.mem_flatMap.mpr ⟨(dx + r).toNat, hx, hinner⟩
  have heq : (((((dx + r).toNat : ℕ)) : ℤ) - (r : ℤ), ((((dy + r).toNat : ℕ)) : ℤ) - (r : ℤ)) =
      (dx, dy) := by
    rw [Prod.mk.injEq]
    constructor <;> omega
  rwa [heq] at houter

/-- Claim C3: for every qualifying heatMapUpdate call (strength at or
above the threshold, center in bounds) and every in-bounds cell inside
the spread square, the new stored value is the MAX of the current value
and the newly computed attenuated value - never their sum.  This holds
for every attenuation function att, in particular the Gaussian one of
the source. -/
theorem c3_heatmap_max_update (s : HeatMapState) (x y strength : ℚ)
    (metalType : Option MetalType) (att : ℤ → ℤ → ℚ) (tx ty : ℤ)
    (h30 : ¬ strength < SIGNAL_THRESHOLD)
    (hc : cellInBounds ⌊x / GRID_RESOLUTION⌋ ⌊y / GRID_RESOLUTION⌋)
    (ht : cellInBounds tx ty)
    (hdx : |tx - ⌊x / GRID_RESOLUTION⌋| ≤ ⌈(2 : ℚ) + strength / 100 * 3⌉)
    (hdy : |ty - ⌊y / GRID_RESOLUTION⌋| ≤ ⌈(2 : ℚ) + strength / 100 * 3⌉) :
    (heatMapUpdate s x y strength metalType att).grid tx ty =
      max (s.grid tx ty)
        (strength *
          att ((tx - ⌊x / GRID_RESOLUTION⌋) * (tx - ⌊x / GRID_RESOLUTION⌋) +
              (ty - ⌊y / GRID_RESOLUTION⌋) * (ty - ⌊y / GRID_RESOLUTION⌋))
            (⌈(2 : ℚ) + strength / 100 * 3⌉ * ⌈(2 : ℚ) + strength / 100 * 3⌉)) := by
  have hs30 : (30 : ℚ) ≤ strength := by
    have := not_lt.mp h30
    simpa [SIGNAL_THRESHOLD] using this
  have hrpos : (0 : ℤ) ≤ ⌈(2 : ℚ) + strength / 100 * 3⌉ := by
    apply Int.ceil_nonneg
    nlinarith
  have hrnat : ((⌈(2 : ℚ) + strength / 100 * 3⌉.toNat : ℤ)) = ⌈(2 : ℚ) + strength / 100 * 3⌉ :=
    Int.toNat_of_nonneg hrpos
  unfold heatMapUpdate
  rw [if_neg h30, if_neg (not_not_intro hc)]
  rw [paint_foldl_grid strength metalType ⌊x / GRID_RESOLUTION⌋ ⌊y / GRID_RESOLUTION⌋
    ⌈(2 : ℚ) + strength / 100 * 3⌉ att tx ty ht]
  rw [if_pos]
  apply mem_spreadOffsets
  · rw [hrnat]
    have := abs_le.mp hdx
    omega
  · rw [hrnat]
    have := abs_le.mp hdx
    omega
  · rw [hrnat]
    have := abs_le.mp hdy
    omega
  · rw [hrnat]
    have := abs_le.mp hdy
    omega

/-- Attenuation used by the witness: value 1 at the center (as exp(0) = 1
for the Gaussian of the source) and 0 elsewhere. -/
def attUnit : ℤ → ℤ → ℚ := fun d2 _ => if d2 = 0 then 1 else 0

/-- Witness for c3_heatmap_max_update: painting strength 40 and then
strength 30 at the same position leaves the center cell at 40, not 70. -/
theorem c3_heatmap_max_update_witness :
    (heatMapUpdate (heatMapUpdate initialHeatMap 405 305 40 none attUnit)
        405 305 30 none attUnit).grid 40 30 = 40 := by
  have hfx : (⌊(405 : ℚ) / GRID_RESOLUTION⌋ : ℤ) = 40 := by
    rw [Int.floor_eq_iff] ; norm_num [GRID_RESOLUTION]
  have hfy : (⌊(305 : ℚ) / GRID_RESOLUTION⌋ : ℤ) = 30 := by
    rw [Int.floor_eq_iff] ; norm_num [GRID_RESOLUTION]
  have hc : cellInBounds ⌊(405 : ℚ) / GRID_RESOLUTION⌋ ⌊(305 : ℚ) / GRID_RESOLUTION⌋ := by
    rw [hfx, hfy]
    refine ⟨by norm_num, by norm_num [GRID_COLS], by norm_num, by norm_num [GRID_ROWS]⟩
  have ht : cellInBounds (40 : ℤ) 30 := by
    refine ⟨by norm_num, by norm_num [GRID_COLS], by norm_num, by norm_num [GRID_ROWS]⟩
  have hceil40 : (⌈(2 : ℚ) + 40 / 100 * 3⌉ : ℤ) = 4 := by
    rw [Int.ceil_eq_iff] ; norm_num
  have hceil30 : (⌈(2 : ℚ) + 30 / 100 * 3⌉ : ℤ) = 3 := by
    rw [Int.ceil_eq_iff] ; norm_num
  have h1 := c3_heatmap_max_update initialHeatMap 405 305 40 none attUnit 40 30
    (by norm_num [SIGNAL_THRESHOLD]) hc ht
    (by rw [hfx, hceil40]; norm_num) (by rw [hfy, hceil40]; norm_num)
  have h2 := c3_heatmap_max_update (heatMapUpdate initialHeatMap 405 305 40 none attUnit)
    405 305 30 none attUnit 40 30
    (by norm_num [SIGNAL_THRESHOLD]) hc ht
    (by rw [hfx, hceil30]; norm_num) (by rw [hfy, hceil30]; norm_num)
  rw [hfx, hfy] at h1 h2
  rw [h2, h1]
  norm_num [initialHeatMap, attUnit]
lemma allCells_length : allCells.length = 4800 := by
  simp [allCells, List.length_flatMap, Function.comp_def, List.length_map,
    List.length_range, List.map_const', List.sum_replicate, smul_eq_mul]

lemma mem_allCells_bounds (c : ℤ × ℤ) (hc : c ∈ allCells) : covInBounds c.1 c.2 := by
  unfold allCells at hc
  rw [List.mem_flatMap] at hc
  obtain ⟨i, hi, hc⟩ := hc
  rw [List.mem_map] at hc
  obtain ⟨j, hj, rfl⟩ := hc
  rw [List.mem_range] at hi hj
  refine ⟨by positivity, ?_, by positivity, ?_⟩
  · simp only [GRID_COLS]
    omega
  · simp only [GRID_ROWS]
    omega

lemma getCoveragePercentage_eq (s : CoverageState) :
    getCoveragePercentage s =
      ((allCells.countP fun c => decide (0 < s.coverageGrid c.1 c.2) : ℕ) : ℚ) / 4800 * 100 := by
  unfold getCoveragePercentage
  norm_num [GRID_COLS, GRID_ROWS]

/-- Claim C7: the coverage percentage is the count of cells with nonzero
timestamp over the total cell count times 100, hence always within
[0, 100]; it is exactly 0 right after reset, exactly 100 when every cell
is marked, and a single update sweep that reaches every cell takes it to
exactly 100. -/
theorem c7_coverage_percentage (s : CoverageState) :
    (0 ≤ getCoveragePercentage s ∧ getCoveragePercentage s ≤ 100) ∧
    getCoveragePercentage (coverageReset s) = 0 ∧
    ((∀ i j : ℤ, covInBounds i j → 0 < s.coverageGrid i j) → getCoveragePercentage s = 100) ∧
    (∀ t : ℚ, 0 < t →
      getCoveragePercentage (coverageUpdate (coverageReset s) 400 300 1000 t) = 100) := by
  have hall : ∀ s2 : CoverageState, (∀ i j : ℤ, covInBounds i j → 0 < s2.coverageGrid i j) →
      getCoveragePercentage s2 = 100 := by
    intro s2 h
    rw [getCoveragePercentage_eq]
    have hcount : (allCells.countP fun c => decide (0 < s2.coverageGrid c.1 c.2)) =
        allCells.length := by
      rw [List.countP_eq_length]
      intro c hc
      rw [decide_eq_true_eq]
      exact h c.1 c.2 (mem_allCells_bounds c hc)
    rw [hcount, allCells_length]
    norm_num
  refine ⟨?_, ?_, hall s, ?_⟩
  · rw [getCoveragePercentage_eq]
    constructor
    · positivity
    · have hle : (allCells.countP fun c => decide (0 < s.coverageGrid c.1 c.2)) ≤ 4800 := by
        rw [← allCells_length]
        exact List.countP_le_length _
      have hle2 : ((allCells.countP fun c => decide (0 < s.coverageGrid c.1 c.2) : ℕ) : ℚ) ≤ 4800 := by
        exact_mod_cast hle
      rw [div_mul_eq_mul_div, div_le_iff₀ (by norm_num)]
      linarith
  · rw [getCoveragePercentage_eq]
    have hcount : (allCells.countP fun c => decide (0 < (coverageReset s).coverageGrid c.1 c.2)) = 0 := by
      rw [List.countP_eq_zero]
      intro c hc
      have hb := mem_allCells_bounds c hc
      simp only [coverageReset, if_pos hb, decide_eq_true_eq]
      norm_num
    rw [hcount]
    norm_num
  · intro t ht
    apply hall
    intro i j hb
    obtain ⟨hi0, hi80, hj0, hj60⟩ := hb
    simp only [coverageUpdate]
    have hbox : (max 0 ⌊((400 : ℚ) - 1000) / GRID_RESOLUTION⌋ : ℤ) ≤ i ∧
        i ≤ min (GRID_COLS - 1) ⌊((400 : ℚ) + 1000) / GRID_RESOLUTION⌋ ∧
        (max 0 ⌊((300 : ℚ) - 1000) / GRID_RESOLUTION⌋ : ℤ) ≤ j ∧
        j ≤ min (GRID_ROWS - 1) ⌊((300 : ℚ) + 1000) / GRID_RESOLUTION⌋ := by
      have e1 : (⌊((400 : ℚ) - 1000) / GRID_RESOLUTION⌋ : ℤ) = -60 := by
        norm_num [GRID_RESOLUTION]
      have e2 : (⌊((400 : ℚ) + 1000) / GRID_RESOLUTION⌋ : ℤ) = 140 := by
        norm_num [GRID_RESOLUTION]
      have e3 : (⌊((300 : ℚ) - 1000) / GRID_RESOLUTION⌋ : ℤ) = -70 := by
        norm_num [GRID_RESOLUTION]
      have e4 : (⌊((300 : ℚ) + 1000) / GRID_RESOLUTION⌋ : ℤ) = 130 := by
        norm_num [GRID_RESOLUTION]
      rw [e1, e2, e3, e4]
      simp only [GRID_COLS, GRID_ROWS] at hi80 hj60 ⊢
      omega
    rw [if_pos hbox]
    have hdist : (((i : ℚ) + 1 / 2) * GRID_RESOLUTION - 400) * (((i : ℚ) + 1 / 2) * GRID_RESOLUTION - 400) +
        (((j : ℚ) + 1 / 2) * GRID_RESOLUTION - 300) * (((j : ℚ) + 1 / 2) * GRID_RESOLUTION - 300) ≤
        1000 * 1000 := by
      have hiq0 : (0 : ℚ) ≤ (i : ℚ) := by exact_mod_cast hi0
      have hiq1 : (i : ℚ) ≤ 79 := by
        have : i ≤ 79 := by simp only [GRID_COLS] at hi80; omega
        exact_mod_cast this
      have hjq0 : (0 : ℚ) ≤ (j : ℚ) := by exact_mod_cast hj0
      have hjq1 : (j : ℚ) ≤ 59 := by
        have : j ≤ 59 := by simp only [GRID_ROWS] at hj60; omega
        exact_mod_cast this
      simp only [GRID_RESOLUTION]
      nlinarith [sq_nonneg ((i : ℚ) - 39), sq_nonneg ((j : ℚ) - 29)]
    rw [if_pos hdist]
    exact ht

/-- Witness for c7_coverage_percentage: a concrete all-ones coverage grid
reads exactly 100 percent, and one radius-1000 sweep from the canvas
center after a reset also reads exactly 100 percent. -/
theorem c7_coverage_percentage_witness :
    getCoveragePercentage ⟨fun _ _ => 1⟩ = 100 ∧
      getCoveragePercentage
        (coverageUpdate (coverageReset ⟨fun _ _ => 1⟩) 400 300 1000 7) = 100 := by
  exact ⟨(c7_coverage_percentage ⟨fun _ _ => 1⟩).2.2.1 (fun i j _ => by norm_num),
    (c7_coverage_percentage ⟨fun _ _ => 1⟩).2.2.2 7 (by norm_num)⟩
/-- Loop invariant of the getSignal scan: after processing the objects in
pre, the accumulator holds a nonnegative running maximum that dominates
every in-range object seen so far, and either nothing has been selected
(all in-range strengths so far are nonpositive, fields at their initial
values) or the first object attaining the positive maximum is selected
with its strength and distance. -/
def scanInv (x y : ℚ) (pre : List BuriedObject) (acc : ScanAcc) : Prop :=
  0 ≤ acc.maxStrength ∧
  (∀ o ∈ pre, inRange x y o → strengthOf x y o ≤ acc.maxStrength) ∧
  ((acc.closestObject = none ∧ acc.maxStrength = 0 ∧ acc.closestDistance = ⊤ ∧
      ∀ o ∈ pre, inRange x y o → strengthOf x y o ≤ 0) ∨
   (∃ o l1 l2, pre = l1 ++ o :: l2 ∧ acc.closestObject = some o ∧ inRange x y o ∧
      acc.maxStrength = strengthOf x y o ∧ 0 < acc.maxStrength ∧
      acc.closestDistance = ((distTo x y o : ℚ) : WithTop ℚ) ∧
      ∀ u ∈ l1, inRange x y u → strengthOf x y u < acc.maxStrength))

lemma scanStep_inv (x y : ℚ) (pre : List BuriedObject) (acc : ScanAcc) (obj : BuriedObject)
    (h : scanInv x y pre acc) : scanInv x y (pre ++ [obj]) (scanStep x y acc obj) := by
  obtain ⟨hms0, hbound, hbranch⟩ := h
  simp only [scanStep]
  by_cases hr : calculateDistance x y obj.x obj.y < DETECTION_RANGE
  · rw [if_pos hr]
    by_cases hgt :
        acc.maxStrength < calculateSignalStrength (calculateDistance x y obj.x obj.y) obj.strength
    · rw [if_pos hgt]
      refine ⟨le_of_lt (lt_of_le_of_lt hms0 hgt), ?_, ?_⟩
      · intro o ho hro
        rcases List.mem_append.mp ho with ho | ho
        · exact le_of_lt (lt_of_le_of_lt (hbound o ho hro) hgt)
        · rw [List.mem_singleton] at ho
          subst ho
          exact le_refl _
      · right
        refine ⟨obj, pre, [], by simp, rfl, hr, rfl, lt_of_le_of_lt hms0 hgt, rfl, ?_⟩
        intro u hu hru
        exact lt_of_le_of_lt (hbound u hu hru) hgt
    · rw [if_neg hgt]
      refine ⟨hms0, ?_, ?_⟩
      · intro o ho hro
        rcases List.mem_append.mp ho with ho | ho
        · exact hbound o ho hro
        · rw [List.mem_singleton] at ho
          subst ho
          exact le_of_not_lt hgt
      · rcases hbranch with ⟨hn, hm, hd, hz⟩ | ⟨o, l1, l2, hsplit, hsome, hro, hmso, hpos, hdo, hstrict⟩
        · left
          refine ⟨hn, hm, hd, ?_⟩
          intro o ho hro
          rcases List.mem_append.mp ho with ho | ho
          · exact hz o ho hro
          · rw [List.mem_singleton] at ho
            subst ho
            rw [← hm]
            exact le_of_not_lt hgt
        · right
          exact ⟨o, l1, l2 ++ [obj], by rw [hsplit]; simp, hsome, hro, hmso, hpos, hdo, hstrict⟩
  · rw [if_neg hr]
    refine ⟨hms0, ?_, ?_⟩
    · intro o ho hro
      rcases List.mem_append.mp ho with ho | ho
      · exact hbound o ho hro
      · rw [List.mem_singleton] at ho
        subst ho
        exact absurd hro hr
    · rcases hbranch with ⟨hn, hm, hd, hz⟩ | ⟨o, l1, l2, hsplit, hsome, hro, hmso, hpos, hdo, hstrict⟩
      · left
        refine ⟨hn, hm, hd, ?_⟩
        intro o ho hro
        rcases List.mem_append.mp ho with ho | ho
        · exact hz o ho hro
        · rw [List.mem_singleton] at ho
          subst ho
          exact absurd hro hr
      · right
        exact ⟨o, l1, l2 ++ [obj], by rw [hsplit]; simp, hsome, hro, hmso, hpos, hdo, hstrict⟩

lemma scanFold_inv (x y : ℚ) :
    ∀ (objs pre : List BuriedObject) (acc : ScanAcc),
      scanInv x y pre acc → scanInv x y (pre ++ objs) (objs.foldl (scanStep x y) acc) := by
  intro objs
  induction objs with
  | nil =>
      intro pre acc h
      simpa using h
  | cons obj rest ih =>
      intro pre acc h
      rw [List.foldl_cons]
      have h3 := ih (pre ++ [obj]) (scanStep x y acc obj) (scanStep_inv x y pre acc obj h)
      rw [List.append_assoc] at h3
      simpa using h3

lemma getSignal_scanInv (objs : List BuriedObject) (x y : ℚ) :
    scanInv x y objs (objs.foldl (scanStep x y) ⟨0, none, ⊤⟩) := by
  have hinit : scanInv x y [] (⟨0, none, ⊤⟩ : ScanAcc) := by
    refine ⟨le_refl 0, by simp, Or.inl ⟨rfl, rfl, rfl, by simp⟩⟩
  have h := scanFold_inv x y objs [] ⟨0, none, ⊤⟩ hinit
  simpa using h

/-- Claim C1 (amended): among the objects strictly inside the detection
range, getSignal returns the first one attaining the maximal computed
strength, together with that strength and that object's distance,
provided some in-range object has positive computed strength; when no
in-range object has positive strength (in particular when no object is
in range at all) it returns strength 0, no object, distance infinity. -/
theorem c1_signal_selection (objs : List BuriedObject) (x y r1 r2 : ℚ) :
    ((∀ o ∈ objs, inRange x y o → strengthOf x y o ≤ 0) →
      (getSignal objs x y r1 r2).strength = 0 ∧
      (getSignal objs x y r1 r2).closestObject = none ∧
      (getSignal objs x y r1 r2).distance = ⊤) ∧
    (∀ o0 ∈ objs, inRange x y o0 → 0 < strengthOf x y o0 →
      ∃ o l1 l2, objs = l1 ++ o :: l2 ∧
        (getSignal objs x y r1 r2).closestObject = some o ∧ inRange x y o ∧
        (getSignal objs x y r1 r2).strength = strengthOf x y o ∧
        (getSignal objs x y r1 r2).distance = ((distTo x y o : ℚ) : WithTop ℚ) ∧
        (∀ u ∈ objs, inRange x y u → strengthOf x y u ≤ strengthOf x y o) ∧
        (∀ u ∈ l1, inRange x y u → strengthOf x y u < strengthOf x y o)) := by
  have hinv := getSignal_scanInv objs x y
  obtain ⟨hms0, hbound, hbranch⟩ := hinv
  constructor
  · intro hall
    rcases hbranch with ⟨hn, hm, hd, _⟩ | ⟨o, l1, l2, hsplit, hsome, hro, hmso, hpos, hdo, _⟩
    · simp only [getSignal]
      rw [hn]
      exact ⟨hm, rfl, hd⟩
    · exfalso
      have ho : o ∈ objs := by
        rw [hsplit]
        simp
      have := hall o ho hro
      rw [← hmso] at this
      exact absurd hpos (not_lt.mpr this)
  · intro o0 ho0 hro0 hpos0
    rcases hbranch with ⟨hn, hm, hd, hz⟩ | ⟨o, l1, l2, hsplit, hsome, hro, hmso, hpos, hdo, hstrict⟩
    · exfalso
      exact absurd hpos0 (not_lt.mpr (hz o0 ho0 hro0))
    · refine ⟨o, l1, l2, hsplit, ?_, hro, ?_, ?_, ?_, ?_⟩
      · simp only [getSignal]
        rw [hsome]
      · simp only [getSignal]
        rw [hsome]
        exact hmso
      · simp only [getSignal]
        rw [hsome]
        exact hdo
      · intro u hu hru
        rw [← hmso]
        exact hbound u hu hru
      · intro u hu hru
        rw [← hmso]
        exact hstrict u hu hru

/-- Witness for c1_signal_selection: the empty object list yields the
no-detection triple. -/
theorem c1_signal_selection_witness :
    (getSignal [] 0 0 0 0).strength = 0 ∧ (getSignal [] 0 0 0 0).closestObject = none ∧
      (getSignal [] 0 0 0 0).distance = ⊤ :=
  (c1_signal_selection [] 0 0 0 0).1 (by simp)

/-- An in-range object whose computed strength is 0: base strength 0 at
distance 0. -/
def zeroStrengthObject : BuriedObject :=
  { x := 0, y := 0, strength := 0, metalTypeName := "IRON", objName := "Zero Strength" }

lemma ratSqrt_zero : ratSqrt 0 = 0 := by
  simp [ratSqrt]

lemma calculateDistance_self (x y : ℚ) : calculateDistance x y x y = 0 := by
  simp [calculateDistance, ratSqrt_zero]

/-- Counterexample to claim C1 as stated: an object with base strength 0
lies strictly inside the detection range (distance 0), so the claim says
it must be returned as the maximal-strength object with its distance 0;
the code instead returns closestObject null and distance infinity, which
the claim reserves for the no-object-in-range case. -/
theorem c1_counterexample :
    inRange 0 0 zeroStrengthObject ∧
      (getSignal [zeroStrengthObject] 0 0 0 0).closestObject = none ∧
      (getSignal [zeroStrengthObject] 0 0 0 0).strength = 0 ∧
      (getSignal [zeroStrengthObject] 0 0 0 0).distance = ⊤ := by
  have hd : calculateDistance 0 0 zeroStrengthObject.x zeroStrengthObject.y = 0 := by
    simp [zeroStrengthObject, calculateDistance_self]
  have hin : inRange 0 0 zeroStrengthObject := by
    unfold inRange distTo
    rw [hd]
    norm_num [DETECTION_RANGE]
  have hfold : ([zeroStrengthObject].foldl (scanStep 0 0) ⟨0, none, ⊤⟩) =
      (⟨0, none, ⊤⟩ : ScanAcc) := by
    rw [List.foldl_cons, List.foldl_nil]
    simp only [scanStep]
    rw [hd, if_pos (by norm_num [DETECTION_RANGE]), css_at_zero]
    rw [if_neg]
    simp [zeroStrengthObject]
  refine ⟨hin, ?_, ?_, ?_⟩ <;>
    · simp only [getSignal]
      rw [hfold]
/-- The Iron Fragment entry of BURIED_OBJECTS in config.js. -/
def ironFragment : BuriedObject :=
  { x := 250, y := 450, strength := 85, metalTypeName := "IRON", objName := "Iron Fragment" }

lemma getMetalType_iron : getMetalType "IRON" = IRON := by
  simp [getMetalType, METAL_TYPES, List.find?]

lemma calculateVDI_iron_zero : calculateVDI IRON 0 = 0 := by
  norm_num [calculateVDI, IRON]

/-- Claim C9: when no buried object is inside the detection range,
getSignal returns metalType null but numeric zeros for vdi, phase and
frequency (never null); and a genuine iron detection can also report
VDI 0 (the bottom of the iron range [0, 30]), so VDI 0 alone does not
distinguish the two cases. -/
theorem c9_no_detection_numeric_zeros (objs : List BuriedObject) (x y r1 r2 : ℚ)
    (h : ∀ o ∈ objs, ¬ inRange x y o) :
    ((getSignal objs x y r1 r2).metalType = none ∧
     (getSignal objs x y r1 r2).vdi = 0 ∧
     (getSignal objs x y r1 r2).phase = 0 ∧
     (getSignal objs x y r1 r2).frequency = 0 ∧
     (getSignal objs x y r1 r2).strength = 0 ∧
     (getSignal objs x y r1 r2).distance = ⊤) ∧
    ((getSignal [ironFragment] 250 450 0 0).metalType = some IRON ∧
     (getSignal [ironFragment] 250 450 0 0).vdi = 0 ∧
     IRON.vdiLo = 0 ∧ IRON.vdiHi = 30) := by
  constructor
  · have hinv := getSignal_scanInv objs x y
    obtain ⟨hms0, hbound, hbranch⟩ := hinv
    rcases hbranch with ⟨hn, hm, hd, _⟩ | ⟨o, l1, l2, hsplit, hsome, hro, _, _, _, _⟩
    · simp only [getSignal]
      rw [hn]
      exact ⟨rfl, rfl, rfl, rfl, hm, hd⟩
    · exfalso
      have ho : o ∈ objs := by
        rw [hsplit]
        simp
      exact h o ho hro
  · have hd : calculateDistance 250 450 ironFragment.x ironFragment.y = 0 := by
      simp [ironFragment, calculateDistance_self]
    have hfold : ([ironFragment].foldl (scanStep 250 450) ⟨0, none, ⊤⟩) =
        (⟨85, some ironFragment, ((0 : ℚ) : WithTop ℚ)⟩ : ScanAcc) := by
      rw [List.foldl_cons, List.foldl_nil]
      simp only [scanStep]
      rw [hd, if_pos (by norm_num [DETECTION_RANGE]), css_at_zero]
      rw [if_pos]
      · rfl
      · norm_num [ironFragment]
    simp only [getSignal]
    rw [hfold]
    refine ⟨?_, ?_, rfl, rfl⟩
    · show some (getMetalType ironFragment.metalTypeName) = some IRON
      rw [show ironFragment.metalTypeName = "IRON" from rfl, getMetalType_iron]
    · show calculateVDI (getMetalType ironFragment.metalTypeName) 0 = 0
      rw [show ironFragment.metalTypeName = "IRON" from rfl, getMetalType_iron,
        calculateVDI_iron_zero]

/-- Witness for c9_no_detection_numeric_zeros: instantiated at the empty
object list. -/
theorem c9_no_detection_numeric_zeros_witness :
    ((getSignal [] 5 5 0 0).metalType = none ∧
     (getSignal [] 5 5 0 0).vdi = 0 ∧
     (getSignal [] 5 5 0 0).phase = 0 ∧
     (getSignal [] 5 5 0 0).frequency = 0 ∧
     (getSignal [] 5 5 0 0).strength = 0 ∧
     (getSignal [] 5 5 0 0).distance = ⊤) ∧
    ((getSignal [ironFragment] 250 450 0 0).metalType = some IRON ∧
     (getSignal [ironFragment] 250 450 0 0).vdi = 0 ∧
     IRON.vdiLo = 0 ∧ IRON.vdiHi = 30) :=
  c9_no_detection_numeric_zeros [] 5 5 0 0 (by simp)
/-- History entry of strength 50 and VDI 50, as produced by a steady
strong signal. -/
def e50 : HistEntry := { strength := 50, vdi := some 50 }

/-- History entry of strength 5 (below both noise floors) and VDI 100. -/
def e5 : HistEntry := { strength := 5, vdi := some 100 }

lemma dec_10_lt_50 : decide ((10 : ℚ) < (50 : ℚ)) = true := by
  simp only [decide_eq_true_eq]
  norm_num

lemma dec_10_lt_5 : decide ((10 : ℚ) < (5 : ℚ)) = false := by
  simp only [decide_eq_false_iff_not]
  norm_num

lemma dec_0_lt_50 : decide ((0 : ℚ) < (50 : ℚ)) = true := by
  simp only [decide_eq_true_eq]
  norm_num

lemma dec_0_lt_5 : decide ((0 : ℚ) < (5 : ℚ)) = true := by
  simp only [decide_eq_true_eq]
  norm_num

lemma stabilityReadings_5 :
    stabilityReadings [e50, e50, e50, e50, e50] = [50, 50, 50, 50, 50] := by
  simp [stabilityReadings, e50, List.filter, List.filterMap, dec_10_lt_50]

lemma stabilityReadings_6 :
    stabilityReadings [e50, e50, e50, e50, e50, e5] = [50, 50, 50, 50, 50] := by
  simp [stabilityReadings, e50, e5, List.filter, List.filterMap, dec_10_lt_50, dec_10_lt_5]

lemma calculateStability_5 :
    calculateStability [e50, e50, e50, e50, e50] = 100 := by
  rw [calculateStability, if_neg (by norm_num), stabilityReadings_5]
  norm_num [ratSqrt_zero, round_eq]

lemma calculateStability_6 :
    calculateStability [e50, e50, e50, e50, e50, e5] = 100 := by
  rw [calculateStability, if_neg (by norm_num), stabilityReadings_6]
  norm_num [ratSqrt_zero, round_eq]

lemma calculateRepeatability_5 :
    calculateRepeatability [e50, e50, e50, e50, e50] = 0 := by
  rw [calculateRepeatability, if_pos (by norm_num)]

lemma calculateRepeatability_6 :
    calculateRepeatability [e50, e50, e50, e50, e50, e5] = 0 := by
  rw [calculateRepeatability, if_pos (by norm_num)]

lemma getAverageStrength_5 :
    getAverageStrength [e50, e50, e50, e50, e50] = 50 := by
  rw [getAverageStrength, if_neg (by norm_num)]
  simp [e50, List.filter, dec_0_lt_50]
  norm_num

lemma getAverageStrength_6 :
    getAverageStrength [e50, e50, e50, e50, e50, e5] = 85 / 2 := by
  rw [getAverageStrength, if_neg (by norm_num)]
  simp [e50, e5, List.filter, dec_0_lt_50, dec_0_lt_5]
  norm_num

lemma lockReadings_5 :
    lockReadings [e50, e50, e50, e50, e50] = [50, 50, 50, 50, 50] := by
  simp [lockReadings, e50, List.filter, List.filterMap]

lemma calculateConfidence_A5 : calculateConfidence 100 0 50 = 58 := by
  norm_num [calculateConfidence, round_eq]

lemma calculateConfidence_A6 : calculateConfidence 100 0 (85 / 2) = 55 := by
  norm_num [calculateConfidence, round_eq]

lemma determineQuality_A5 : determineQuality 58 100 50 = "FAIR" := by
  norm_num [determineQuality]

lemma determineQuality_A6 : determineQuality 55 100 (85 / 2) = "FAIR" := by
  norm_num [determineQuality]

lemma stateA4 :
    [e50, e50, e50, e50].foldl analyzerUpdate initialAnalyzer =
      { initialAnalyzer with signalHistory := [e50, e50, e50, e50] } := by
  simp [List.foldl, analyzerUpdate, addToHistory, maxHistoryLength, initialAnalyzer]

lemma stateA5 :
    analyzerUpdate { initialAnalyzer with signalHistory := [e50, e50, e50, e50] } e50 =
      { signalHistory := [e50, e50, e50, e50, e50], stability := 100, quality := "FAIR",
        repeatability := 0, confidence := 58, targetLocked := true,
        lastTargetVDI := some 50 } := by
  simp only [analyzerUpdate, addToHistory, maxHistoryLength]
  norm_num
  simp only [analyzeSignal, initialAnalyzer]
  norm_num [calculateStability_5, calculateRepeatability_5, getAverageStrength_5,
    calculateConfidence_A5, determineQuality_A5]
  simp only [checkTargetLock]
  norm_num [getAverageStrength_5, lockReadings_5, round_eq]

lemma lockReadings_6 :
    lockReadings [e50, e50, e50, e50, e50, e5] = [50, 50, 50, 50, 50, 100] := by
  simp [lockReadings, e50, e5, List.filter, List.filterMap]

lemma stateA6 :
    analyzerUpdate
        { signalHistory := [e50, e50, e50, e50, e50], stability := 100, quality := "FAIR",
          repeatability := 0, confidence := 58, targetLocked := true,
          lastTargetVDI := some 50 } e5 =
      { signalHistory := [e50, e50, e50, e50, e50, e5], stability := 100, quality := "FAIR",
        repeatability := 0, confidence := 55, targetLocked := true,
        lastTargetVDI := some 50 } := by
  simp only [analyzerUpdate, addToHistory, maxHistoryLength]
  norm_num
  simp only [analyzeSignal]
  norm_num [calculateStability_6, calculateRepeatability_6, getAverageStrength_6,
    calculateConfidence_A6, determineQuality_A6]
  simp only [checkTargetLock]
  norm_num [getAverageStrength_6]

/-- The t6 input sequence: five strong steady readings followed by one
weak reading that keeps the lock conditions satisfied. -/
def lockSequence : List HistEntry := [e50, e50, e50, e50, e50, e5]

/-- Analyzer state after feeding lockSequence from a fresh analyzer. -/
def lockFinalState : AnalyzerState := lockSequence.foldl analyzerUpdate initialAnalyzer

lemma lockFinalState_eq :
    lockFinalState =
      { signalHistory := [e50, e50, e50, e50, e50, e5], stability := 100, quality := "FAIR",
        repeatability := 0, confidence := 55, targetLocked := true,
        lastTargetVDI := some 50 } := by
  have h4 := stateA4
  rw [lockFinalState, lockSequence]
  simp only [List.foldl] at h4 ⊢
  rw [h4, stateA5, stateA6]

/-- Counterexample to claim C5 as stated: after the sixth update the
analyzer is locked (stability 100, average strength 42.5), the mean VDI
of the window entries with non-null VDI is 350/6 = 175/3 (rounding to
58), yet the locked VDI value still holds 50, the rounded mean recorded
when the lock was first acquired on the fifth update. -/
theorem c5_counterexample :
    lockFinalState.targetLocked = true ∧
      lockFinalState.lastTargetVDI = some 50 ∧
      lockReadings lockFinalState.signalHistory = [50, 50, 50, 50, 50, 100] ∧
      (([50, 50, 50, 50, 50, 100] : List ℚ).sum /
        (([50, 50, 50, 50, 50, 100] : List ℚ).length : ℚ)) = 175 / 3 ∧
      round ((175 : ℚ) / 3) = 58 ∧
      lockFinalState.lastTargetVDI ≠ some (round ((175 : ℚ) / 3)) := by
  rw [lockFinalState_eq]
  refine ⟨rfl, rfl, lockReadings_6, by norm_num, by norm_num [round_eq], ?_⟩
  rw [show round ((175 : ℚ) / 3) = 58 from by norm_num [round_eq]]
  simp

lemma checkTargetLock_fields (s : AnalyzerState) :
    (checkTargetLock s).signalHistory = s.signalHistory ∧
      (checkTargetLock s).stability = s.stability ∧
      (checkTargetLock s).repeatability = s.repeatability := by
  simp only [checkTargetLock]
  split
  · split
    · exact ⟨rfl, rfl, rfl⟩
    · split
      · exact ⟨rfl, rfl, rfl⟩
      · exact ⟨rfl, rfl, rfl⟩
  · exact ⟨rfl, rfl, rfl⟩

lemma analyzeSignal_history (s : AnalyzerState) :
    (analyzeSignal s).signalHistory = s.signalHistory := by
  simp only [analyzeSignal]
  rw [(checkTargetLock_fields _).1]

lemma analyzerUpdate_history (s : AnalyzerState) (e : HistEntry) :
    (analyzerUpdate s e).signalHistory = addToHistory s.signalHistory e := by
  simp only [analyzerUpdate]
  split
  · rw [analyzeSignal_history]
  · rfl

lemma analyzerUpdate_of_five (s : AnalyzerState) (e : HistEntry)
    (h5 : 5 ≤ (addToHistory s.signalHistory e).length) :
    analyzerUpdate s e =
      analyzeSignal { s with signalHistory := addToHistory s.signalHistory e } := by
  simp only [analyzerUpdate]
  rw [if_pos h5]

lemma checkTargetLock_spec (s : AnalyzerState) :
    ((checkTargetLock s).targetLocked = true ↔
        (70 < s.stability ∧ 40 < getAverageStrength s.signalHistory)) ∧
    (¬(70 < s.stability ∧ 40 < getAverageStrength s.signalHistory) →
      (checkTargetLock s).targetLocked = false ∧ (checkTargetLock s).lastTargetVDI = none) ∧
    ((70 < s.stability ∧ 40 < getAverageStrength s.signalHistory) →
      (s.targetLocked = true → (checkTargetLock s).lastTargetVDI = s.lastTargetVDI) ∧
      (s.targetLocked = false →
        (0 < (lockReadings s.signalHistory).length →
          (checkTargetLock s).lastTargetVDI =
            some (round ((lockReadings s.signalHistory).sum /
              ((lockReadings s.signalHistory).length : ℚ)))) ∧
        ((lockReadings s.signalHistory).length = 0 →
          (checkTargetLock s).lastTargetVDI = s.lastTargetVDI))) := by
  simp only [checkTargetLock]
  split
  next hcond =>
    split
    next hlock =>
      exact ⟨⟨fun _ => hcond, fun _ => hlock⟩,
        fun hc => absurd hcond hc,
        fun _ => ⟨fun _ => rfl,
          fun hfalse => Bool.noConfusion (hlock.symm.trans hfalse)⟩⟩
    next hlock =>
      split
      next hlen =>
        exact ⟨⟨fun _ => hcond, fun _ => rfl⟩,
          fun hc => absurd hcond hc,
          fun _ => ⟨fun htrue => absurd htrue hlock,
            fun _ => ⟨fun _ => rfl,
              fun hzero => absurd (hzero ▸ hlen) (lt_irrefl 0)⟩⟩⟩
      next hlen =>
        exact ⟨⟨fun _ => hcond, fun _ => rfl⟩,
          fun hc => absurd hcond hc,
          fun _ => ⟨fun htrue => absurd htrue hlock,
            fun _ => ⟨fun hpos => absurd hpos hlen, fun _ => rfl⟩⟩⟩
  next hcond =>
    exact ⟨⟨fun hfalse => Bool.noConfusion hfalse, fun hc => absurd hc hcond⟩,
      fun _ => ⟨rfl, rfl⟩,
      fun hc => absurd hc hcond⟩

/-- Claim C5 (amended): after any update leaving at least 5 window
samples, targetLocked holds exactly when stability > 70 and average
strength > 40; when either condition fails the lock drops and the locked
VDI is cleared to null on that same update; when the conditions hold,
the locked VDI is set to the rounded mean of the non-null window VDIs
only on the unlocked-to-locked transition (kept unchanged if no VDI is
available), and is retained unchanged - not recomputed - while the lock
persists. -/
theorem c5_target_lock (s : AnalyzerState) (e : HistEntry)
    (h5 : 5 ≤ (analyzerUpdate s e).signalHistory.length) :
    ((analyzerUpdate s e).targetLocked = true ↔
        (70 < calculateStability (analyzerUpdate s e).signalHistory ∧
          40 < getAverageStrength (analyzerUpdate s e).signalHistory)) ∧
    (¬(70 < calculateStability (analyzerUpdate s e).signalHistory ∧
          40 < getAverageStrength (analyzerUpdate s e).signalHistory) →
      (analyzerUpdate s e).targetLocked = false ∧
        (analyzerUpdate s e).lastTargetVDI = none) ∧
    ((70 < calculateStability (analyzerUpdate s e).signalHistory ∧
        40 < getAverageStrength (analyzerUpdate s e).signalHistory) →
      (s.targetLocked = true → (analyzerUpdate s e).lastTargetVDI = s.lastTargetVDI) ∧
      (s.targetLocked = false →
        (0 < (lockReadings (analyzerUpdate s e).signalHistory).length →
          (analyzerUpdate s e).lastTargetVDI =
            some (round ((lockReadings (analyzerUpdate s e).signalHistory).sum /
              ((lockReadings (analyzerUpdate s e).signalHistory).length : ℚ)))) ∧
        ((lockReadings (analyzerUpdate s e).signalHistory).length = 0 →
          (analyzerUpdate s e).lastTargetVDI = s.lastTargetVDI))) := by
  have hhist := analyzerUpdate_history s e
  rw [hhist] at h5 ⊢
  rw [analyzerUpdate_of_five s e h5]
  simp only [analyzeSignal]
  exact checkTargetLock_spec _

/-- Witness for c5_target_lock: the fifth steady reading locks the
target (stability 100 > 70, average strength 50 > 40). -/
theorem c5_target_lock_witness :
    (analyzerUpdate { initialAnalyzer with signalHistory := [e50, e50, e50, e50] }
        e50).targetLocked = true := by
  have hhist :
      (analyzerUpdate { initialAnalyzer with signalHistory := [e50, e50, e50, e50] }
        e50).signalHistory = [e50, e50, e50, e50, e50] := by
    rw [analyzerUpdate_history]
    simp [addToHistory, maxHistoryLength]
  have h := c5_target_lock { initialAnalyzer with signalHistory := [e50, e50, e50, e50] } e50
    (by rw [hhist]; norm_num)
  apply h.1.mpr
  rw [hhist, calculateStability_5, getAverageStrength_5]
  norm_num

/-- The presenceRatio of calculateRepeatability: fraction of window
entries with strength above the noise floor 10. -/
def presenceFraction (h : List HistEntry) : ℚ :=
  ((h.countP fun en => decide (10 < en.strength) : ℕ) : ℚ) / (h.length : ℚ)

/-- Five strong steady readings: enough samples for analysis (5) but
fewer than the 10 the repeatability computation requires. -/
def repeatSequence : List HistEntry := [e50, e50, e50, e50, e50]

/-- Analyzer state after feeding repeatSequence from a fresh analyzer. -/
def repeatFinalState : AnalyzerState := repeatSequence.foldl analyzerUpdate initialAnalyzer

lemma repeatFinalState_eq :
    repeatFinalState =
      { signalHistory := [e50, e50, e50, e50, e50], stability := 100, quality := "FAIR",
        repeatability := 0, confidence := 58, targetLocked := true,
        lastTargetVDI := some 50 } := by
  have h4 := stateA4
  rw [repeatFinalState, repeatSequence]
  simp only [List.foldl] at h4 ⊢
  rw [h4, stateA5]

/-- Counterexample to claim C4 as stated: with exactly 5 window samples
(the stated minimum) whose presence fraction is 1 - far outside
[0.3, 0.7] - the claim requires a repeatability between 80 and 100, but
update produces repeatability 0, because calculateRepeatability has its
own 10-sample minimum. -/
theorem c4_counterexample :
    repeatFinalState.signalHistory.length = 5 ∧
      presenceFraction repeatFinalState.signalHistory = 1 ∧
      ¬((3 : ℚ) / 10 ≤ 1 ∧ (1 : ℚ) ≤ 7 / 10) ∧
      repeatFinalState.repeatability = 0 ∧
      ¬(80 ≤ repeatFinalState.repeatability) := by
  rw [repeatFinalState_eq]
  refine ⟨rfl, ?_, by norm_num, rfl, by norm_num⟩
  simp [presenceFraction, List.countP_cons, List.countP_nil, e50, dec_10_lt_50]

lemma calculateRepeatability_spec (L : List HistEntry) (h10 : 10 ≤ L.length) :
    (presenceFraction L < 3 / 10 ∨ 7 / 10 < presenceFraction L →
      calculateRepeatability L = round ((80 : ℚ) + |presenceFraction L - 1 / 2| * 40) ∧
        80 ≤ calculateRepeatability L ∧ calculateRepeatability L ≤ 100) ∧
    (3 / 10 ≤ presenceFraction L → presenceFraction L ≤ 7 / 10 →
      calculateRepeatability L = 40) := by
  have hlen0 : (0 : ℚ) < (L.length : ℚ) := by
    have : 0 < L.length := by omega
    exact_mod_cast this
  have hfrac0 : 0 ≤ presenceFraction L := by
    unfold presenceFraction
    positivity
  have hfrac1 : presenceFraction L ≤ 1 := by
    unfold presenceFraction
    rw [div_le_one hlen0]
    have := List.countP_le_length (l := L) (p := fun en => decide (10 < en.strength))
    exact_mod_cast this
  have habsle : |presenceFraction L - 1 / 2| ≤ 1 / 2 :=
    abs_le.mpr ⟨by linarith, by linarith⟩
  have habs0 : (0 : ℚ) ≤ |presenceFraction L - 1 / 2| := abs_nonneg _
  simp only [calculateRepeatability]
  rw [if_neg (by omega)]
  rw [show ((L.countP fun en => decide (10 < en.strength) : ℕ) : ℚ) / (L.length : ℚ) =
    presenceFraction L from rfl]
  constructor
  · intro hout
    have hcond : 7 / 10 < presenceFraction L ∨ presenceFraction L < 3 / 10 := hout.symm
    rw [if_pos hcond]
    refine ⟨rfl, ?_, ?_⟩
    · rw [round_eq]
      have hmono : ((80 : ℚ) + 1 / 2) ≤ ((80 : ℚ) + |presenceFraction L - 1 / 2| * 40) + 1 / 2 := by
        nlinarith
      have := Int.floor_le_floor hmono
      calc (80 : ℤ) = ⌊(80 : ℚ) + 1 / 2⌋ := by norm_num
        _ ≤ _ := this
    · rw [round_eq]
      have hmono : ((80 : ℚ) + |presenceFraction L - 1 / 2| * 40) + 1 / 2 ≤ (100 : ℚ) + 1 / 2 := by
        nlinarith
      have := Int.floor_le_floor hmono
      calc ⌊((80 : ℚ) + |presenceFraction L - 1 / 2| * 40) + 1 / 2⌋ ≤ ⌊(100 : ℚ) + 1 / 2⌋ := this
        _ = 100 := by norm_num
  · intro h3 h7
    rw [if_neg (by push_neg; exact ⟨h7, h3⟩)]
    norm_num [round_eq]

/-- Claim C4 (amended): for every update that leaves at least 10 window
samples (the 10-sample minimum of calculateRepeatability, not the
5-sample analysis minimum), the resulting repeatability is determined by
the fraction of window entries above the noise floor: when the fraction
is outside [0.3, 0.7] it is 80 + |fraction - 0.5| * 40 rounded, which
lies between 80 and 100; otherwise it is the flat 40. -/
theorem c4_repeatability (s : AnalyzerState) (e : HistEntry)
    (h10 : 10 ≤ (analyzerUpdate s e).signalHistory.length) :
    (presenceFraction (analyzerUpdate s e).signalHistory < 3 / 10 ∨
        7 / 10 < presenceFraction (analyzerUpdate s e).signalHistory →
      (analyzerUpdate s e).repeatability =
          round ((80 : ℚ) + |presenceFraction (analyzerUpdate s e).signalHistory - 1 / 2| * 40) ∧
        80 ≤ (analyzerUpdate s e).repeatability ∧
        (analyzerUpdate s e).repeatability ≤ 100) ∧
    (3 / 10 ≤ presenceFraction (analyzerUpdate s e).signalHistory →
      presenceFraction (analyzerUpdate s e).signalHistory ≤ 7 / 10 →
      (analyzerUpdate s e).repeatability = 40) := by
  have hhist := analyzerUpdate_history s e
  have hrep : (analyzerUpdate s e).repeatability =
      calculateRepeatability (addToHistory s.signalHistory e) := by
    rw [analyzerUpdate_of_five s e (by rw [hhist] at h10; exact le_trans (by norm_num) h10)]
    simp only [analyzeSignal]
    rw [(checkTargetLock_fields _).2.2]
  rw [hhist] at h10 ⊢
  rw [hrep]
  exact calculateRepeatability_spec (addToHistory s.signalHistory e) h10

/-- Witness for c4_repeatability: ten consecutive strong readings give
presence fraction 1 and repeatability exactly 100. -/
theorem c4_repeatability_witness :
    (analyzerUpdate
        { initialAnalyzer with
            signalHistory := [e50, e50, e50, e50, e50, e50, e50, e50, e50] }
        e50).repeatability = 100 := by
  have hhist :
      (analyzerUpdate
          { initialAnalyzer with
              signalHistory := [e50, e50, e50, e50, e50, e50, e50, e50, e50] }
          e50).signalHistory = [e50, e50, e50, e50, e50, e50, e50, e50, e50, e50] := by
    rw [analyzerUpdate_history]
    simp [addToHistory, maxHistoryLength]
  have hfrac :
      presenceFraction [e50, e50, e50, e50, e50, e50, e50, e50, e50, e50] = 1 := by
    simp [presenceFraction, List.countP_cons, List.countP_nil, e50, dec_10_lt_50]
  have h := c4_repeatability
    { initialAnalyzer with
        signalHistory := [e50, e50, e50, e50, e50, e50, e50, e50, e50] } e50
    (by rw [hhist]; norm_num)
  rw [hhist, hfrac] at h
  have h1 := h.1 (Or.inr (by norm_num))
  have habs : |(1 : ℚ) - 1 / 2| = 1 / 2 := by
    rw [abs_of_nonneg (by norm_num : (0 : ℚ) ≤ 1 - 1 / 2)]
    norm_num
  rw [h1.1, habs]
  norm_num [round_eq]
end MetalDetector
